import Mathlib

/-! maze_project: a shallow embedding of `src/walls.c`

The program keeps its state in globals (`worldMap`, `playerX`, `playerY`,
`playerAngle`, `rainEnabled`, `raindrops`); here every function takes the
globals it reads as arguments and returns the ones it writes.

Modelling conventions
* A finite `float` or `double` is the rational it denotes; `FloatVal` adds NaN
  and the two infinities. The sign of a zero is not kept; a zero divisor is
  taken as `+0`, the only zero the one division of the program can meet (its
  divisor is a square root).
* In `handleInput` and `drawMap` every float operation is rounded as the
  source does it: `roundFloat` rounds to the nearest value of the format, ties
  to even, with subnormals, underflow to zero and overflow to an infinity.
  An expression of `float` operands is evaluated in binary32; an expression
  with a `double` operand (`M_PI`) is evaluated in binary64 and rounded to
  binary32 when it is stored in a `float`.
* In the rain functions the arithmetic is exact rational arithmetic. The
  heights that occur in the program are multiples of 5 up to 605, on which
  binary32 addition is exact; the inputs at which a claim is refuted there
  are of that kind.
* `cos`, `sin` and `sqrt` come from `<cmath>`, in their `float` and `double`
  overloads; they are taken as the fields of a `MathLib` parameter.
* `static_cast<int>` of a finite float truncates toward zero; of a NaN or an
  infinity it is undefined behaviour.
* An out-of-bounds read of `worldMap` is undefined behaviour: the model
  returns `none` there instead of inventing a value.
* `std::vector<Raindrop>` is modelled by its storage cells and its size;
  `pop_back` decrements the size and leaves the cells in place, and the
  range-based `for` runs between the `begin()` and `end()` taken once before
  the first iteration.
-/

namespace Maze

/-! ## Constants -/

/-- Source line 10: `const int SCREEN_WIDTH = 800;`. -/
def SCREEN_WIDTH : Int := 800

/-- Source line 11: `const int SCREEN_HEIGHT = 600;`. -/
def SCREEN_HEIGHT : Int := 600

/-- Source line 16: `const int MAP_WIDTH = 8;`. -/
abbrev MAP_WIDTH : Nat := 8

/-- Source line 17: `const int MAP_HEIGHT = 8;`. -/
abbrev MAP_HEIGHT : Nat := 8

/-! ## Floating point -/

/-- A binary floating-point format: the number of significand bits and the
least and greatest exponent of a normal number. -/
structure FloatFormat where
  prec : Nat
  emin : Int
  emax : Int
deriving DecidableEq

/-- The format of `float`. -/
def binary32 : FloatFormat := { prec := 24, emin := -126, emax := 127 }

/-- The format of `double`. -/
def binary64 : FloatFormat := { prec := 53, emin := -1022, emax := 1023 }

/-- Two to the power `t`. -/
def pow2 (t : Int) : ℚ :=
  if 0 ≤ t then ((2 ^ t.toNat : Nat) : ℚ) else 1 / ((2 ^ (-t).toNat : Nat) : ℚ)

/-- The absolute value of a rational. -/
def absQ (q : ℚ) : ℚ := if q < 0 then -q else q

/-- The binary logarithm of `n`, rounded down, by halving at most `fuel` times. -/
def log2Fuel : Nat → Nat → Nat
  | 0, _ => 0
  | fuel + 1, n => if n < 2 then 0 else log2Fuel fuel (n / 2) + 1

/-- The binary logarithm of a positive natural number, rounded down. -/
def log2Nat (n : Nat) : Nat := log2Fuel n n

/-- The exponent `e` with `2 ^ e ≤ |q| < 2 ^ (e + 1)`, for `q` not zero. -/
def floorLog2 (q : ℚ) : Int :=
  let e0 : Int := (log2Nat q.num.natAbs : Int) - (log2Nat q.den : Int)
  if pow2 e0 ≤ absQ q then e0 else e0 - 1

/-- The integer nearest to `s`, the even one of the two when `s` is halfway. -/
def roundHalfEven (s : ℚ) : Int :=
  let f : Int := Rat.floor s
  let r : ℚ := s - (f : ℚ)
  if r < 1 / 2 then f
  else if 1 / 2 < r then f + 1
  else if f % 2 = 0 then f
  else f + 1

/-- The value of a float expression. -/
inductive FloatVal where
  | nan
  | posInf
  | negInf
  | finite (q : ℚ)
deriving DecidableEq

/-- The real number `q` rounded to the format: to nearest, ties to even, with
subnormals below `2 ^ emin` and an infinity from `2 ^ (emax + 1)` on. -/
def roundFloat (fmt : FloatFormat) (q : ℚ) : FloatVal :=
  if q = 0 then FloatVal.finite 0
  else
    let e : Int := max (floorLog2 q) fmt.emin
    let ulp : ℚ := pow2 (e - ((fmt.prec : Int) - 1))
    let r : ℚ := (roundHalfEven (q / ulp) : ℚ) * ulp
    if pow2 (fmt.emax + 1) ≤ absQ r then
      if 0 < q then FloatVal.posInf else FloatVal.negInf
    else FloatVal.finite r

/-- The unary minus. -/
def FloatVal.neg : FloatVal → FloatVal
  | FloatVal.nan => FloatVal.nan
  | FloatVal.posInf => FloatVal.negInf
  | FloatVal.negInf => FloatVal.posInf
  | FloatVal.finite q => FloatVal.finite (-q)

/-- The sum `a + b` in the format. -/
def FloatVal.add (fmt : FloatFormat) : FloatVal → FloatVal → FloatVal
  | FloatVal.nan, _ => FloatVal.nan
  | _, FloatVal.nan => FloatVal.nan
  | FloatVal.posInf, FloatVal.negInf => FloatVal.nan
  | FloatVal.negInf, FloatVal.posInf => FloatVal.nan
  | FloatVal.posInf, _ => FloatVal.posInf
  | _, FloatVal.posInf => FloatVal.posInf
  | FloatVal.negInf, _ => FloatVal.negInf
  | _, FloatVal.negInf => FloatVal.negInf
  | FloatVal.finite x, FloatVal.finite y => roundFloat fmt (x + y)

/-- The difference `a - b` in the format. -/
def FloatVal.sub (fmt : FloatFormat) (a b : FloatVal) : FloatVal :=
  FloatVal.add fmt a b.neg

/-- The infinity with the sign of `q`, NaN for `q = 0`: an infinity times `q`. -/
def infTimes (positive : Bool) (q : ℚ) : FloatVal :=
  if q = 0 then FloatVal.nan
  else if (0 < q) = positive then FloatVal.posInf
  else FloatVal.negInf

/-- The product `a * b` in the format. -/
def FloatVal.mul (fmt : FloatFormat) : FloatVal → FloatVal → FloatVal
  | FloatVal.nan, _ => FloatVal.nan
  | _, FloatVal.nan => FloatVal.nan
  | FloatVal.finite x, FloatVal.finite y => roundFloat fmt (x * y)
  | FloatVal.finite x, FloatVal.posInf => infTimes true x
  | FloatVal.finite x, FloatVal.negInf => infTimes false x
  | FloatVal.posInf, FloatVal.finite y => infTimes true y
  | FloatVal.negInf, FloatVal.finite y => infTimes false y
  | FloatVal.posInf, FloatVal.posInf => FloatVal.posInf
  | FloatVal.negInf, FloatVal.negInf => FloatVal.posInf
  | FloatVal.posInf, FloatVal.negInf => FloatVal.negInf
  | FloatVal.negInf, FloatVal.posInf => FloatVal.negInf

/-- The quotient `a / b` in the format. A zero divisor is `+0`: `0 / 0` is
NaN and `x / 0` is the infinity with the sign of `x`. -/
def FloatVal.div (fmt : FloatFormat) : FloatVal → FloatVal → FloatVal
  | FloatVal.nan, _ => FloatVal.nan
  | _, FloatVal.nan => FloatVal.nan
  | FloatVal.finite x, FloatVal.finite y =>
    if y = 0 then
      if x = 0 then FloatVal.nan
      else if 0 < x then FloatVal.posInf
      else FloatVal.negInf
    else roundFloat fmt (x / y)
  | FloatVal.finite _, FloatVal.posInf => FloatVal.finite 0
  | FloatVal.finite _, FloatVal.negInf => FloatVal.finite 0
  | FloatVal.posInf, FloatVal.finite y => if 0 ≤ y then FloatVal.posInf else FloatVal.negInf
  | FloatVal.negInf, FloatVal.finite y => if 0 ≤ y then FloatVal.negInf else FloatVal.posInf
  | FloatVal.posInf, FloatVal.posInf => FloatVal.nan
  | FloatVal.posInf, FloatVal.negInf => FloatVal.nan
  | FloatVal.negInf, FloatVal.posInf => FloatVal.nan
  | FloatVal.negInf, FloatVal.negInf => FloatVal.nan

/-- The conversion of a value to the format, as when a `double` is stored in
a `float`. -/
def FloatVal.convert (fmt : FloatFormat) : FloatVal → FloatVal
  | FloatVal.finite q => roundFloat fmt q
  | v => v

/-- The comparison `a > b`; false when an operand is NaN. -/
def FloatVal.gt : FloatVal → FloatVal → Bool
  | FloatVal.nan, _ => false
  | _, FloatVal.nan => false
  | FloatVal.posInf, FloatVal.posInf => false
  | FloatVal.posInf, _ => true
  | _, FloatVal.posInf => false
  | FloatVal.negInf, _ => false
  | FloatVal.finite _, FloatVal.negInf => true
  | FloatVal.finite x, FloatVal.finite y => decide (y < x)

/-- A call of `cos` or `sin`, given the function on finite arguments: NaN on a
NaN or an infinity. -/
def applyMath (f : ℚ → ℚ) : FloatVal → FloatVal
  | FloatVal.finite t => FloatVal.finite (f t)
  | _ => FloatVal.nan

/-- A call of `sqrt`, given the function on finite arguments that are not
negative: NaN on a negative argument, infinity on infinity. -/
def applySqrt (f : ℚ → ℚ) : FloatVal → FloatVal
  | FloatVal.finite t => if t < 0 then FloatVal.nan else FloatVal.finite (f t)
  | FloatVal.posInf => FloatVal.posInf
  | _ => FloatVal.nan

/-- The macro `M_PI` of `<cmath>`, `3.14159265358979323846` as a `double`. -/
def M_PI : ℚ := 884279719003555 / 281474976710656

/-- The literal `0.1`, stored in a `float`. -/
def float_0_1 : ℚ := 13421773 / 134217728

/-- The literal `0.05`, stored in a `float`. -/
def float_0_05 : ℚ := 13421773 / 268435456

/-- The literal `0.7`, a `double`. -/
def double_0_7 : ℚ := 3152519739159347 / 4503599627370496

/-! ## Data model -/

/-- Source line 18: `int worldMap[MAP_WIDTH][MAP_HEIGHT]`, indexed `[x][y]`. -/
abbrev WorldMap := Fin MAP_WIDTH → Fin MAP_HEIGHT → Int

/-- The functions of `<cmath>` that the program calls, on finite arguments:
the `float` overloads `cosf`, `sinf`, `sqrtf` and the `double` overloads `cos`,
`sin`. -/
structure MathLib where
  cosf : ℚ → ℚ
  sinf : ℚ → ℚ
  sqrtf : ℚ → ℚ
  cos : ℚ → ℚ
  sin : ℚ → ℚ

/-- The mutable globals of source lines 20-27 that `handleInput` reads or
writes. The position is finite (it is only ever assigned a value that
`isCollision` has converted to `int`); the angle is any float value. -/
structure Globals where
  playerX : ℚ
  playerY : ℚ
  playerAngle : FloatVal
  playerSpeed : ℚ
  rotationSpeed : ℚ
  rainEnabled : Bool
deriving DecidableEq

/-- The initial values of the globals (source lines 20-27). -/
def initialGlobals : Globals :=
  { playerX := 9 / 2, playerY := 9 / 2, playerAngle := FloatVal.finite 0,
    playerSpeed := float_0_1, rotationSpeed := float_0_05, rainEnabled := false }

/-- The kinds of `SDL_Event` that `handleInput` distinguishes. -/
inductive EventType where
  | quit
  | keyDown
  | keyUp
  | other
deriving DecidableEq

/-- The entries of `SDL_GetKeyboardState` that `handleInput` reads. -/
structure Keys where
  r : Bool
  w : Bool
  s : Bool
  a : Bool
  d : Bool
  left : Bool
  right : Bool
deriving DecidableEq

/-- What a call of `handleInput` ends in. -/
inductive Outcome where
  | running (g : Globals)
  | exited
  | undefined
deriving DecidableEq

/-! ## Collision -/

/-- The conversion `static_cast<int>(x)` of a float: truncation toward zero. -/
def truncToInt (q : ℚ) : Int := Int.tdiv q.num q.den

/-- The read `worldMap[cellX][cellY]`; `none` when an index is outside the array. -/
def readCell (worldMap : WorldMap) (cellX cellY : Int) : Option Int :=
  if h : (0 ≤ cellX ∧ cellX < MAP_WIDTH) ∧ (0 ≤ cellY ∧ cellY < MAP_HEIGHT) then
    some (worldMap ⟨cellX.toNat, by have := h.1; omega⟩ ⟨cellY.toNat, by have := h.2; omega⟩)
  else none

/-- Source lines 176-181: `isCollision`. -/
def isCollision (worldMap : WorldMap) (x y : ℚ) : Option Bool :=
  let cellX := truncToInt x
  let cellY := truncToInt y
  (readCell worldMap cellX cellY).map (fun v => decide (v = 1))

/-! ## Input handling -/

/-- The block `if (!isCollision(nextX, nextY)) { playerX = nextX; playerY = nextY; }`
that closes each of the four movement branches of `handleInput`. A candidate
that is NaN or an infinity cannot be converted to `int` by `isCollision`. -/
def moveIfFree (worldMap : WorldMap) (g : Globals) (nextX nextY : FloatVal) : Option Globals :=
  match nextX, nextY with
  | FloatVal.finite x, FloatVal.finite y =>
    match isCollision worldMap x y with
    | none => none
    | some c => if !c then some { g with playerX := x, playerY := y } else some g
  | _, _ => none

/-- Source lines 133-148: move forward and backward. The operands are all
`float`: the arithmetic is binary32. -/
def moveForwardBackward (M : MathLib) (worldMap : WorldMap) (k : Keys) (g : Globals) :
    Option Globals :=
  if k.w && !k.s then
    let nextX := FloatVal.add binary32 (FloatVal.finite g.playerX)
      (FloatVal.mul binary32 (FloatVal.finite g.playerSpeed) (applyMath M.cosf g.playerAngle))
    let nextY := FloatVal.add binary32 (FloatVal.finite g.playerY)
      (FloatVal.mul binary32 (FloatVal.finite g.playerSpeed) (applyMath M.sinf g.playerAngle))
    moveIfFree worldMap g nextX nextY
  else if !k.w && k.s then
    let nextX := FloatVal.sub binary32 (FloatVal.finite g.playerX)
      (FloatVal.mul binary32 (FloatVal.finite g.playerSpeed) (applyMath M.cosf g.playerAngle))
    let nextY := FloatVal.sub binary32 (FloatVal.finite g.playerY)
      (FloatVal.mul binary32 (FloatVal.finite g.playerSpeed) (applyMath M.sinf g.playerAngle))
    moveIfFree worldMap g nextX nextY
  else some g

/-- The argument `playerAngle + M_PI / 2` of source lines 152-160, a `double`. -/
def strafeAngle (g : Globals) : FloatVal :=
  FloatVal.add binary64 g.playerAngle
    (FloatVal.div binary64 (FloatVal.finite M_PI) (FloatVal.finite 2))

/-- Source lines 150-165: strafe left and right. `M_PI` is a `double`: the
arithmetic is binary64, and the result is rounded to binary32 when it is
stored in `nextX`, `nextY`. -/
def strafeLeftRight (M : MathLib) (worldMap : WorldMap) (k : Keys) (g : Globals) :
    Option Globals :=
  if k.a && !k.d then
    let nextX := FloatVal.convert binary32 (FloatVal.sub binary64 (FloatVal.finite g.playerX)
      (FloatVal.mul binary64 (FloatVal.finite g.playerSpeed) (applyMath M.cos (strafeAngle g))))
    let nextY := FloatVal.convert binary32 (FloatVal.sub binary64 (FloatVal.finite g.playerY)
      (FloatVal.mul binary64 (FloatVal.finite g.playerSpeed) (applyMath M.sin (strafeAngle g))))
    moveIfFree worldMap g nextX nextY
  else if !k.a && k.d then
    let nextX := FloatVal.convert binary32 (FloatVal.add binary64 (FloatVal.finite g.playerX)
      (FloatVal.mul binary64 (FloatVal.finite g.playerSpeed) (applyMath M.cos (strafeAngle g))))
    let nextY := FloatVal.convert binary32 (FloatVal.add binary64 (FloatVal.finite g.playerY)
      (FloatVal.mul binary64 (FloatVal.finite g.playerSpeed) (applyMath M.sin (strafeAngle g))))
    moveIfFree worldMap g nextX nextY
  else some g

/-- Source lines 167-172: rotate left and right, in binary32. -/
def rotateLeftRight (k : Keys) (g : Globals) : Globals :=
  if k.left && !k.right then
    { g with playerAngle :=
        FloatVal.sub binary32 g.playerAngle (FloatVal.finite g.rotationSpeed) }
  else if !k.left && k.right then
    { g with playerAngle :=
        FloatVal.add binary32 g.playerAngle (FloatVal.finite g.rotationSpeed) }
  else g

/-- Source lines 128-131: toggle the rain with the R key. -/
def toggleRain (k : Keys) (g : Globals) : Globals :=
  if k.r then { g with rainEnabled := !g.rainEnabled } else g

/-- Source lines 121-174: `handleInput`. -/
def handleInput (M : MathLib) (worldMap : WorldMap) (e : EventType) (k : Keys) (g : Globals) :
    Outcome :=
  match e with
  | EventType.quit => Outcome.exited
  | EventType.other => Outcome.running g
  | _ =>
    match moveForwardBackward M worldMap k (toggleRain k g) with
    | none => Outcome.undefined
    | some g1 =>
      match strafeLeftRight M worldMap k g1 with
      | none => Outcome.undefined
      | some g2 => Outcome.running (rotateLeftRight k g2)

/-! ## Concrete inputs -/

/-- A map with no wall. -/
def floorMap : WorldMap := fun _ _ => 0

/-- A map whose outer ring of cells is wall and whose inside is floor. -/
def ringMap : WorldMap := fun i j =>
  if i.val = 0 ∨ i.val = 7 ∨ j.val = 0 ∨ j.val = 7 then 1 else 0

/-- The integer square root of the numerator over that of the denominator:
exact on squares of rationals. -/
def ratSqrt (v : ℚ) : ℚ := (Nat.sqrt v.num.toNat : ℚ) / (Nat.sqrt v.den : ℚ)

/-- The `double` nearest to `M_PI / 2`. -/
def halfPi : ℚ := 884279719003555 / 562949953421312

/-- A `MathLib` that is exact where the concrete inputs below call it: `cosf`
and `sinf` at `0`, `sqrtf` on squares of rationals, and `cos`, `sin` at the
`double` `M_PI / 2`, where the correctly rounded `cos` is
`4967757600021511 / 2 ^ 106` and the correctly rounded `sin` is `1`. -/
def axisMath : MathLib :=
  { cosf := fun t => if t = 0 then 1 else 0
    sinf := fun _ => 0
    sqrtf := ratSqrt
    cos := fun t =>
      if t = halfPi then 4967757600021511 / 81129638414606681695789005144064
      else if t = 0 then 1 else 0
    sin := fun t => if t = halfPi then 1 else 0 }

/-- Only the forward key is down. -/
def forwardKeys : Keys :=
  { r := false, w := true, s := false, a := false, d := false, left := false, right := false }

/-- Forward and backward are both down, nothing else. -/
def forwardBackwardKeys : Keys :=
  { r := false, w := true, s := true, a := false, d := false, left := false, right := false }

/-- Forward is down, and both keys of the strafe pair and of the rotation pair. -/
def opposedKeys : Keys :=
  { r := false, w := true, s := false, a := true, d := true, left := true, right := true }

/-- Strafe-left and strafe-right are both down, nothing else. -/
def strafeBothKeys : Keys :=
  { r := false, w := false, s := false, a := true, d := true, left := false, right := false }

/-- Forward and strafe-right are down. -/
def forwardStrafeKeys : Keys :=
  { r := false, w := true, s := false, a := false, d := true, left := false, right := false }

/-- The initial globals with the player on the corner shared by four floor
cells of `ringMap`, facing east. -/
def cornerGlobals : Globals := { initialGlobals with playerX := 4, playerY := 4 }

/-- The initial globals with the player moved next to the east wall of `ringMap`. -/
def nearEastWall : Globals := { initialGlobals with playerX := 111 / 16 }

/-- The initial globals with the player at `(-2 ^ -100, -2 ^ -99)`, next to the
corner of the wall cell `(0, 0)` of `ringMap`, facing east. -/
def tinyOffsetGlobals : Globals :=
  { initialGlobals with playerX := -(pow2 (-100)), playerY := -(pow2 (-99)) }

/-! ## Rain particles -/

/-- Source lines 35-39: `struct Raindrop`. -/
structure Raindrop where
  x : ℚ
  y : ℚ
  speed : ℚ
deriving DecidableEq

/-- Source lines 183-188: `generateRaindrops`, with `r` the value returned by
`rand()`. `RAND_MAX` is the constant of `<cstdlib>`. -/
def generateRaindrops (RAND_MAX : Nat) (r : Nat) (raindrops : List Raindrop) : List Raindrop :=
  let randomX : ℚ := (r : ℚ) / (RAND_MAX : ℚ) * (SCREEN_WIDTH : ℚ)
  let newRaindrop : Raindrop := { x := randomX, y := 0, speed := 5 }
  raindrops ++ [newRaindrop]

/-- The memory of `std::vector<Raindrop> raindrops` during `moveRaindrops`: the
storage cells between the `begin()` and `end()` taken at loop entry, and the
current `size()`. The live elements are the first `size` cells. -/
structure RainVector where
  cells : List Raindrop
  size : Nat
deriving DecidableEq

/-- Source lines 192-197: the loop body of `moveRaindrops` for the iterator at
offset `i`. `none` stands for undefined behaviour (a read outside the storage,
or `back()` on an empty vector). -/
def moveBody (v : RainVector) (i : Nat) : Option RainVector :=
  match v.cells[i]? with
  | none => none
  | some raindrop =>
    let moved : Raindrop := { raindrop with y := raindrop.y + raindrop.speed }
    let cells1 := v.cells.set i moved
    if moved.y > (SCREEN_HEIGHT : ℚ) then
      match v.size with
      | 0 => none
      | n + 1 =>
        match cells1[n]? with
        | none => none
        | some back => some { cells := cells1.set i back, size := n }
    else some { cells := cells1, size := v.size }

/-- The range-based `for` of source line 191: `n` iterations remain, the
iterator is at offset `i`. -/
def moveLoop : Nat → Nat → RainVector → Option RainVector
  | 0, _, v => some v
  | n + 1, i, v =>
    match moveBody v i with
    | none => none
    | some v1 => moveLoop n (i + 1) v1

/-- Source lines 190-199: `moveRaindrops`. -/
def moveRaindrops (raindrops : List Raindrop) : Option (List Raindrop) :=
  (moveLoop raindrops.length 0 { cells := raindrops, size := raindrops.length }).map
    (fun v => v.cells.take v.size)

/-- Source lines 290-294 of `main`: the rain part of one frame, with `r` the
value that `rand()` returns in it. -/
def rainFrame (RAND_MAX : Nat) (rainEnabled : Bool) (r : Nat) (raindrops : List Raindrop) :
    Option (List Raindrop) :=
  if rainEnabled then moveRaindrops (generateRaindrops RAND_MAX r raindrops)
  else some raindrops

/-- Successive frames with the rain enabled, one per value of `rand()`. -/
def rainFrames (RAND_MAX : Nat) : List Nat → List Raindrop → Option (List Raindrop)
  | [], raindrops => some raindrops
  | r :: rs, raindrops =>
    match rainFrame RAND_MAX true r raindrops with
    | none => none
    | some next => rainFrames RAND_MAX rs next

/-- Successive calls of `generateRaindrops`, one per value of `rand()`. -/
def spawnAll (RAND_MAX : Nat) (rs : List Nat) : List Raindrop :=
  rs.foldl (fun raindrops r => generateRaindrops RAND_MAX r raindrops) []

/-- Successive calls of `moveRaindrops`. -/
def moveTimes : Nat → List Raindrop → Option (List Raindrop)
  | 0, raindrops => some raindrops
  | n + 1, raindrops =>
    match moveRaindrops raindrops with
    | none => none
    | some next => moveTimes n next

/-- One particle after `y += speed`. -/
def advanceOne (p : Raindrop) : Raindrop := { p with y := p.y + p.speed }

/-- The particle update in the words of the specification: each particle has
`y += speed`, and each particle whose `y` then exceeds the viewport height is
removed. -/
def advanceSpec (raindrops : List Raindrop) : List Raindrop :=
  (raindrops.map advanceOne).filter (fun p => decide (¬ p.y > (SCREEN_HEIGHT : ℚ)))

/-- A particle that the next advance takes beyond the viewport height, and
that falls (its speed is not negative). -/
def leaving (p : Raindrop) : Prop := p.y + p.speed > (SCREEN_HEIGHT : ℚ) ∧ 0 ≤ p.speed

instance (p : Raindrop) : Decidable (leaving p) := by
  unfold leaving
  infer_instance

/-- A list of values of `rand()` for one hundred spawns. -/
def hundredRands : List Nat := List.range 100

/-! ## Drawing -/

/-- The textures of source lines 29-33. -/
inductive Texture where
  | wallTexture
  | floorTexture
  | ceilingTexture
  | weaponTexture
  | raindropTexture
deriving DecidableEq

/-- One `SDL_RenderCopy` call: a texture and its destination rectangle. -/
structure DrawCommand where
  texture : Texture
  x : Int
  y : Int
  width : Int
  height : Int
deriving DecidableEq

/-- Source lines 116-119: `renderTexture`, as the command it sends to the renderer. -/
def renderTexture (texture : Texture) (x y width height : Int) : DrawCommand :=
  { texture := texture, x := x, y := y, width := width, height := height }

/-- The variable `dx` of source line 214. -/
def cellDx (g : Globals) (x : Fin 8) : FloatVal :=
  FloatVal.sub binary32 (FloatVal.finite (x.val : ℚ)) (FloatVal.finite g.playerX)

/-- The variable `dy` of source line 215. -/
def cellDy (g : Globals) (y : Fin 8) : FloatVal :=
  FloatVal.sub binary32 (FloatVal.finite (y.val : ℚ)) (FloatVal.finite g.playerY)

/-- The variable `distance` of source line 216. -/
def cellDistance (M : MathLib) (g : Globals) (x y : Fin 8) : FloatVal :=
  applySqrt M.sqrtf
    (FloatVal.add binary32 (FloatVal.mul binary32 (cellDx g x) (cellDx g x))
      (FloatVal.mul binary32 (cellDy g y) (cellDy g y)))

/-- The numerator of `dot` at source line 217. -/
def dotNumerator (M : MathLib) (g : Globals) (x y : Fin 8) : FloatVal :=
  FloatVal.add binary32
    (FloatVal.mul binary32 (cellDx g x) (applyMath M.cosf g.playerAngle))
    (FloatVal.mul binary32 (cellDy g y) (applyMath M.sinf g.playerAngle))

/-- The variable `dot` of source line 217. -/
def cellDot (M : MathLib) (g : Globals) (x y : Fin 8) : FloatVal :=
  FloatVal.div binary32 (dotNumerator M g x y) (cellDistance M g x y)

/-- The wall tile of cell `(x, y)`, source line 220. -/
def wallTile (x y : Fin 8) : DrawCommand :=
  renderTexture Texture.wallTexture ((x.val : Int) * Int.tdiv SCREEN_WIDTH MAP_WIDTH)
    ((y.val : Int) * Int.tdiv SCREEN_HEIGHT MAP_HEIGHT)
    (Int.tdiv SCREEN_WIDTH MAP_WIDTH) (Int.tdiv SCREEN_HEIGHT MAP_HEIGHT)

/-- Source lines 212-225: the body of the two loops of `drawMap` at cell `(x, y)`. -/
def drawCell (M : MathLib) (worldMap : WorldMap) (g : Globals) (x y : Fin 8) :
    List DrawCommand :=
  let tileW := Int.tdiv SCREEN_WIDTH MAP_WIDTH
  let tileH := Int.tdiv SCREEN_HEIGHT MAP_HEIGHT
  if worldMap x y = 1 then
    if (cellDot M g x y).gt (FloatVal.finite double_0_7) then
      [renderTexture Texture.wallTexture (x.val * tileW) (y.val * tileH) tileW tileH]
    else []
  else
    [renderTexture Texture.floorTexture (x.val * tileW) (y.val * tileH) tileW tileH,
     renderTexture Texture.ceilingTexture (x.val * tileW) 0 tileW
       (Int.tdiv SCREEN_HEIGHT (2 * MAP_HEIGHT))]

/-- Source lines 209-228: `drawMap`, as the commands it sends in order. -/
def drawMap (M : MathLib) (worldMap : WorldMap) (g : Globals) : List DrawCommand :=
  (List.finRange 8).flatMap (fun x =>
    (List.finRange 8).flatMap (fun y => drawCell M worldMap g x y))

/-! # Theorems -/

/-! ## Collision -/

/-- On a non-negative float the conversion to `int` is the floor. -/
theorem truncToInt_of_nonneg (q : ℚ) (h : 0 ≤ q) : truncToInt q = ⌊q⌋ := by
  unfold truncToInt
  rw [Rat.floor_def, Int.tdiv_eq_ediv (Rat.num_nonneg.2 h) (by positivity)]

/-- On a non-positive float the conversion to `int` is the ceiling. -/
theorem truncToInt_of_nonpos (q : ℚ) (h : q ≤ 0) : truncToInt q = ⌈q⌉ := by
  have h1 : truncToInt q = -truncToInt (-q) := by
    unfold truncToInt
    rw [Rat.neg_num, Rat.neg_den, Int.neg_tdiv, neg_neg]
  rw [h1, truncToInt_of_nonneg (-q) (by linarith), Int.floor_neg, neg_neg]

/-- The truncated index is inside `[0, 8)` exactly for floats in `(-1, 8)`. -/
theorem truncToInt_in_range (q : ℚ) :
    (0 ≤ truncToInt q ∧ truncToInt q < 8) ↔ (-1 < q ∧ q < 8) := by
  rcases le_total 0 q with h | h
  · rw [truncToInt_of_nonneg q h]
    constructor
    · rintro ⟨_, h2⟩
      exact ⟨by linarith, by have := Int.floor_lt.1 h2; exact_mod_cast this⟩
    · rintro ⟨_, h2⟩
      exact ⟨Int.floor_nonneg.2 h, Int.floor_lt.2 (by exact_mod_cast h2)⟩
  · rw [truncToInt_of_nonpos q h]
    constructor
    · rintro ⟨h1, _⟩
      have : (-1 : Int) < ⌈q⌉ := by omega
      have := Int.lt_ceil.1 this
      exact ⟨by exact_mod_cast this, by linarith⟩
    · rintro ⟨h1, _⟩
      have h3 : (-1 : Int) < ⌈q⌉ := Int.lt_ceil.2 (by exact_mod_cast h1)
      have h4 : ⌈q⌉ ≤ 0 := Int.ceil_le.2 (by exact_mod_cast h)
      omega

/-- A read at indices inside the array returns the cell. -/
theorem readCell_fin (worldMap : WorldMap) (i : Fin MAP_WIDTH) (j : Fin MAP_HEIGHT) :
    readCell worldMap (i.val : Int) (j.val : Int) = some (worldMap i j) := by
  have hi := i.isLt
  have hj := j.isLt
  unfold readCell
  have h : (0 ≤ (i.val : Int) ∧ (i.val : Int) < MAP_WIDTH) ∧
      (0 ≤ (j.val : Int) ∧ (j.val : Int) < MAP_HEIGHT) := by
    refine ⟨⟨by omega, by omega⟩, ⟨by omega, by omega⟩⟩
  rw [dif_pos h]
  simp

/-- A read is undefined exactly when an index is outside the array. -/
theorem readCell_eq_none (worldMap : WorldMap) (cx cy : Int) :
    readCell worldMap cx cy = none ↔
      ¬ ((0 ≤ cx ∧ cx < MAP_WIDTH) ∧ (0 ≤ cy ∧ cy < MAP_HEIGHT)) := by
  unfold readCell
  split_ifs with h
  · exact ⟨fun hh => by simp at hh, fun hh => absurd h hh⟩
  · exact ⟨fun _ => h, fun _ => rfl⟩

/-- A read that returns a value returns a cell of the map. -/
theorem readCell_eq_some (worldMap : WorldMap) (cx cy : Int) (v : Int) :
    readCell worldMap cx cy = some v ↔
      ∃ (i : Fin MAP_WIDTH) (j : Fin MAP_HEIGHT), cx = i.val ∧ cy = j.val ∧ worldMap i j = v := by
  constructor
  · intro h
    unfold readCell at h
    split_ifs at h with hr
    refine ⟨⟨cx.toNat, by have := hr.1; omega⟩, ⟨cy.toNat, by have := hr.2; omega⟩, ?_, ?_, ?_⟩
    · have := hr.1; simp; omega
    · have := hr.2; simp; omega
    · simpa using h
  · rintro ⟨i, j, rfl, rfl, rfl⟩
    exact readCell_fin worldMap i j

/-- Inside the grid `isCollision` tests the cell at the truncated indices against 1. -/
theorem isCollision_fin (worldMap : WorldMap) (x y : ℚ) (i : Fin MAP_WIDTH) (j : Fin MAP_HEIGHT)
    (hx : truncToInt x = i.val) (hy : truncToInt y = j.val) :
    isCollision worldMap x y = some (decide (worldMap i j = 1)) := by
  simp only [isCollision, hx, hy, readCell_fin, Option.map_some']

/-- C1, as amended. `isCollision` has no bounds check. It returns true exactly
when both truncated indices are inside the grid and the cell there holds 1,
false exactly when both are inside the grid and the cell there does not hold
1, and it is undefined (a read outside `worldMap`) exactly when a coordinate
is outside the open interval `(-1, 8)`. -/
theorem isCollision_no_bounds_check (worldMap : WorldMap) (x y : ℚ) :
    (isCollision worldMap x y = some true ↔
      ∃ (i : Fin MAP_WIDTH) (j : Fin MAP_HEIGHT),
        truncToInt x = i.val ∧ truncToInt y = j.val ∧ worldMap i j = 1) ∧
    (isCollision worldMap x y = some false ↔
      ∃ (i : Fin MAP_WIDTH) (j : Fin MAP_HEIGHT),
        truncToInt x = i.val ∧ truncToInt y = j.val ∧ worldMap i j ≠ 1) ∧
    (isCollision worldMap x y = none ↔ ¬ ((-1 < x ∧ x < 8) ∧ (-1 < y ∧ y < 8))) := by
  refine ⟨?_, ?_, ?_⟩
  · constructor
    · intro h
      simp only [isCollision, Option.map_eq_some'] at h
      obtain ⟨v, hv, hd⟩ := h
      obtain ⟨i, j, hi, hj, hw⟩ := (readCell_eq_some _ _ _ _).1 hv
      exact ⟨i, j, hi, hj, by rw [hw]; simpa using hd⟩
    · rintro ⟨i, j, hi, hj, hw⟩
      rw [isCollision_fin worldMap x y i j hi hj, hw]
      simp
  · constructor
    · intro h
      simp only [isCollision, Option.map_eq_some'] at h
      obtain ⟨v, hv, hd⟩ := h
      obtain ⟨i, j, hi, hj, hw⟩ := (readCell_eq_some _ _ _ _).1 hv
      exact ⟨i, j, hi, hj, by rw [hw]; simpa using hd⟩
    · rintro ⟨i, j, hi, hj, hw⟩
      rw [isCollision_fin worldMap x y i j hi hj]
      simp [hw]
  · simp only [isCollision, Option.map_eq_none']
    rw [readCell_eq_none, ← truncToInt_in_range x, ← truncToInt_in_range y]
    rfl

/-- C1, refuted as stated. The point `(-0.5, 4.5)` is outside `[0,8)x[0,8)`,
it truncates to the cell `(0, 4)`, and on the map without walls `isCollision`
returns false there. The point `(8.0, 4.5)` is outside too, and there the read
`worldMap[8][4]` is outside the array: no result is defined. -/
theorem isCollision_outside_counterexample :
    ¬ ((0 ≤ (-1 / 2 : ℚ) ∧ (-1 / 2 : ℚ) < 8) ∧ (0 ≤ (9 / 2 : ℚ) ∧ (9 / 2 : ℚ) < 8)) ∧
    isCollision floorMap (-1 / 2) (9 / 2) = some false ∧
    ¬ ((0 ≤ (8 : ℚ) ∧ (8 : ℚ) < 8) ∧ (0 ≤ (9 / 2 : ℚ) ∧ (9 / 2 : ℚ) < 8)) ∧
    isCollision ringMap 8 (9 / 2) = none := by
  refine ⟨by norm_num, by decide!, by norm_num, by decide!⟩

/-! ## Floating point -/

/-- The rounding function on values whose binary32 and binary64 neighbours
are known: the literals of the program, a tie that goes to the even
neighbour, underflow to zero, the least subnormal, and overflow. -/
theorem roundFloat_examples :
    roundFloat binary32 (1 / 10) = FloatVal.finite float_0_1 ∧
    roundFloat binary32 (1 / 20) = FloatVal.finite float_0_05 ∧
    roundFloat binary64 (7 / 10) = FloatVal.finite double_0_7 ∧
    roundFloat binary64 (314159265358979323846 / 100000000000000000000) =
      FloatVal.finite M_PI ∧
    roundFloat binary64 (M_PI / 2) = FloatVal.finite halfPi ∧
    roundFloat binary32 (9 / 2 + float_0_1) = FloatVal.finite (9646899 / 2097152) ∧
    roundFloat binary32 (4 - pow2 (-23)) = FloatVal.finite 4 ∧
    roundFloat binary32 (pow2 (-200)) = FloatVal.finite 0 ∧
    roundFloat binary32 (pow2 (-150)) = FloatVal.finite 0 ∧
    roundFloat binary32 (3 * pow2 (-150)) = FloatVal.finite (pow2 (-148)) ∧
    roundFloat binary32 (pow2 128 - pow2 103) = FloatVal.posInf ∧
    roundFloat binary32 (pow2 128 - pow2 103 - 1) =
      FloatVal.finite (pow2 128 - pow2 104) := by
  refine ⟨by decide!, by decide!, by decide!, by decide!, by decide!, by decide!, by decide!,
    by decide!, by decide!, by decide!, by decide!, by decide!⟩

/-- Zero rounds to zero in every format. -/
theorem roundFloat_zero (fmt : FloatFormat) : roundFloat fmt 0 = FloatVal.finite 0 := by
  simp [roundFloat]

/-! ## Input handling -/

/-- A finite candidate inside a wall cell leaves the globals as they are. -/
theorem moveIfFree_wall (worldMap : WorldMap) (g : Globals) (x y : ℚ)
    (h : isCollision worldMap x y = some true) :
    moveIfFree worldMap g (FloatVal.finite x) (FloatVal.finite y) = some g := by
  simp [moveIfFree, h]

/-- A finite candidate outside every wall cell becomes the position. -/
theorem moveIfFree_free (worldMap : WorldMap) (g : Globals) (x y : ℚ)
    (h : isCollision worldMap x y = some false) :
    moveIfFree worldMap g (FloatVal.finite x) (FloatVal.finite y) =
      some { g with playerX := x, playerY := y } := by
  simp [moveIfFree, h]

/-- Whatever `moveIfFree` returns keeps every global but the position, and its
position is either the old one or a finite candidate that is not a wall. -/
theorem moveIfFree_cases (worldMap : WorldMap) (g g1 : Globals) (nextX nextY : FloatVal)
    (h : moveIfFree worldMap g nextX nextY = some g1) :
    g1 = g ∨
      ∃ x y, nextX = FloatVal.finite x ∧ nextY = FloatVal.finite y ∧
        g1 = { g with playerX := x, playerY := y } ∧
        isCollision worldMap x y = some false := by
  cases nextX with
  | finite x =>
    cases nextY with
    | finite y =>
      simp only [moveIfFree] at h
      cases hc : isCollision worldMap x y with
      | none => simp [hc] at h
      | some c =>
        cases c with
        | true => left; simp [hc] at h; exact h.symm
        | false => right; simp [hc] at h; exact ⟨x, y, rfl, rfl, h.symm, hc⟩
    | nan => simp [moveIfFree] at h
    | posInf => simp [moveIfFree] at h
    | negInf => simp [moveIfFree] at h
  | nan => simp [moveIfFree] at h
  | posInf => simp [moveIfFree] at h
  | negInf => simp [moveIfFree] at h

/-- The forward and backward block keeps the globals, or moves to a position
that is not a wall and keeps everything else. -/
theorem moveForwardBackward_cases (M : MathLib) (worldMap : WorldMap) (k : Keys)
    (g g1 : Globals) (h : moveForwardBackward M worldMap k g = some g1) :
    g1 = g ∨
      (isCollision worldMap g1.playerX g1.playerY = some false ∧
        g1.playerAngle = g.playerAngle ∧ g1.playerSpeed = g.playerSpeed ∧
        g1.rotationSpeed = g.rotationSpeed ∧ g1.rainEnabled = g.rainEnabled) := by
  unfold moveForwardBackward at h
  split_ifs at h
  · rcases moveIfFree_cases _ _ _ _ _ h with h1 | ⟨x, y, _, _, h1, h2⟩
    · exact Or.inl h1
    · right; subst h1; exact ⟨h2, rfl, rfl, rfl, rfl⟩
  · rcases moveIfFree_cases _ _ _ _ _ h with h1 | ⟨x, y, _, _, h1, h2⟩
    · exact Or.inl h1
    · right; subst h1; exact ⟨h2, rfl, rfl, rfl, rfl⟩
  · left; simpa using h.symm

/-- The strafe block keeps the globals, or moves to a position that is not a
wall and keeps everything else. -/
theorem strafeLeftRight_cases (M : MathLib) (worldMap : WorldMap) (k : Keys)
    (g g1 : Globals) (h : strafeLeftRight M worldMap k g = some g1) :
    g1 = g ∨
      (isCollision worldMap g1.playerX g1.playerY = some false ∧
        g1.playerAngle = g.playerAngle ∧ g1.playerSpeed = g.playerSpeed ∧
        g1.rotationSpeed = g.rotationSpeed ∧ g1.rainEnabled = g.rainEnabled) := by
  unfold strafeLeftRight at h
  split_ifs at h
  · rcases moveIfFree_cases _ _ _ _ _ h with h1 | ⟨x, y, _, _, h1, h2⟩
    · exact Or.inl h1
    · right; subst h1; exact ⟨h2, rfl, rfl, rfl, rfl⟩
  · rcases moveIfFree_cases _ _ _ _ _ h with h1 | ⟨x, y, _, _, h1, h2⟩
    · exact Or.inl h1
    · right; subst h1; exact ⟨h2, rfl, rfl, rfl, rfl⟩
  · left; simpa using h.symm

/-- With both strafe keys down the strafe block does nothing. -/
theorem strafeLeftRight_both (M : MathLib) (worldMap : WorldMap) (k : Keys) (g : Globals)
    (ha : k.a = true) (hd : k.d = true) : strafeLeftRight M worldMap k g = some g := by
  simp [strafeLeftRight, ha, hd]

/-- The rotation block does not change the position. -/
theorem rotateLeftRight_position (k : Keys) (g : Globals) :
    (rotateLeftRight k g).playerX = g.playerX ∧ (rotateLeftRight k g).playerY = g.playerY := by
  unfold rotateLeftRight
  split_ifs <;> exact ⟨rfl, rfl⟩

/-- The rain toggle changes nothing but `rainEnabled`. -/
theorem toggleRain_pose (k : Keys) (g : Globals) :
    (toggleRain k g).playerX = g.playerX ∧ (toggleRain k g).playerY = g.playerY ∧
      (toggleRain k g).playerAngle = g.playerAngle ∧
      (toggleRain k g).playerSpeed = g.playerSpeed ∧
      (toggleRain k g).rotationSpeed = g.rotationSpeed := by
  unfold toggleRain
  split_ifs <;> exact ⟨rfl, rfl, rfl, rfl, rfl⟩

/-- On a keyboard event `handleInput` is the sequence of its four blocks. -/
theorem handleInput_key (M : MathLib) (worldMap : WorldMap) (e : EventType) (k : Keys)
    (g : Globals) (he : e = EventType.keyDown ∨ e = EventType.keyUp) :
    handleInput M worldMap e k g =
      match moveForwardBackward M worldMap k (toggleRain k g) with
      | none => Outcome.undefined
      | some g1 =>
        match strafeLeftRight M worldMap k g1 with
        | none => Outcome.undefined
        | some g2 => Outcome.running (rotateLeftRight k g2) := by
  rcases he with rfl | rfl <;> rfl

/-- C2, as amended. On a key-down or key-up event with only the forward key
down, `handleInput` computes in binary32 the candidate
`(playerX + playerSpeed * cos playerAngle, playerY + playerSpeed * sin playerAngle)`,
each product and each sum rounded to `float`. When the candidate is the finite
pair `(cx, cy)` and truncates to the cell `(i, j)` of the map: if that cell
holds 1 the pose is unchanged, and if it holds 0 the position is exactly
`(cx, cy)` and the angle is unchanged. -/
theorem handleInput_forward_only (M : MathLib) (worldMap : WorldMap) (e : EventType) (k : Keys)
    (g : Globals) (cx cy : ℚ) (i : Fin MAP_WIDTH) (j : Fin MAP_HEIGHT)
    (he : e = EventType.keyDown ∨ e = EventType.keyUp)
    (hk : k.w = true ∧ k.s = false ∧ k.a = false ∧ k.d = false ∧
      k.left = false ∧ k.right = false)
    (hx : FloatVal.add binary32 (FloatVal.finite g.playerX)
      (FloatVal.mul binary32 (FloatVal.finite g.playerSpeed) (applyMath M.cosf g.playerAngle)) =
        FloatVal.finite cx)
    (hy : FloatVal.add binary32 (FloatVal.finite g.playerY)
      (FloatVal.mul binary32 (FloatVal.finite g.playerSpeed) (applyMath M.sinf g.playerAngle)) =
        FloatVal.finite cy)
    (hi : truncToInt cx = i.val) (hj : truncToInt cy = j.val) :
    (worldMap i j = 1 →
      ∃ g1, handleInput M worldMap e k g = Outcome.running g1 ∧
        g1.playerX = g.playerX ∧ g1.playerY = g.playerY ∧ g1.playerAngle = g.playerAngle) ∧
    (worldMap i j = 0 →
      ∃ g1, handleInput M worldMap e k g = Outcome.running g1 ∧
        g1.playerX = cx ∧ g1.playerY = cy ∧ g1.playerAngle = g.playerAngle) := by
  obtain ⟨hw, hs, ha, hd, hl, hr⟩ := hk
  obtain ⟨tx, ty, ta, ts, _⟩ := toggleRain_pose k g
  have hcol := isCollision_fin worldMap cx cy i j hi hj
  have hfb : moveForwardBackward M worldMap k (toggleRain k g) =
      moveIfFree worldMap (toggleRain k g) (FloatVal.finite cx) (FloatVal.finite cy) := by
    simp only [moveForwardBackward, hw, hs, Bool.not_false, Bool.and_self, if_true,
      tx, ty, ta, ts, hx, hy]
  have hst : ∀ g2, strafeLeftRight M worldMap k g2 = some g2 := by
    intro g2; simp [strafeLeftRight, ha, hd]
  have hrot : ∀ g2, rotateLeftRight k g2 = g2 := by
    intro g2; simp [rotateLeftRight, hl, hr]
  rw [handleInput_key M worldMap e k g he, hfb]
  constructor
  · intro h1
    have hc : isCollision worldMap cx cy = some true := by rw [hcol, h1]; simp
    refine ⟨toggleRain k g, ?_, tx, ty, ta⟩
    simp only [moveIfFree_wall _ _ _ _ hc, hst, hrot]
  · intro h0
    have hc : isCollision worldMap cx cy = some false := by rw [hcol, h0]; simp
    refine ⟨{ toggleRain k g with playerX := cx, playerY := cy }, ?_, rfl, rfl, ta⟩
    simp only [moveIfFree_free _ _ _ _ hc, hst, hrot]

/-- C2 as amended, at two concrete inputs, both on `ringMap` with the
program's speed `0.1f`, facing east. Next to the east wall the candidate
`(7.0375, 4.5)` lies in the wall cell `(7, 4)` and the pose is unchanged. From
the initial pose `(4.5, 4.5)` the candidate is `(9646899 / 2097152, 4.5)`, the
binary32 sum of `4.5` and `0.1f`, in the floor cell `(4, 4)`, and it becomes
the position. -/
theorem handleInput_forward_only_witness :
    (ringMap 7 4 = 1 ∧
      ∃ g1, handleInput axisMath ringMap EventType.keyDown forwardKeys nearEastWall =
          Outcome.running g1 ∧
        g1.playerX = nearEastWall.playerX ∧ g1.playerY = nearEastWall.playerY ∧
        g1.playerAngle = nearEastWall.playerAngle) ∧
    (ringMap 4 4 = 0 ∧
      ∃ g1, handleInput axisMath ringMap EventType.keyDown forwardKeys initialGlobals =
          Outcome.running g1 ∧
        g1.playerX = 9646899 / 2097152 ∧ g1.playerY = 9 / 2 ∧
        g1.playerAngle = initialGlobals.playerAngle) :=
  ⟨⟨by decide,
      (handleInput_forward_only axisMath ringMap EventType.keyDown forwardKeys nearEastWall
        (14758707 / 2097152) (9 / 2) 7 4
        (Or.inl rfl) ⟨rfl, rfl, rfl, rfl, rfl, rfl⟩ (by decide!) (by decide!)
        (by decide!) (by decide!)).1 (by decide)⟩,
    ⟨by decide,
      (handleInput_forward_only axisMath ringMap EventType.keyDown forwardKeys initialGlobals
        (9646899 / 2097152) (9 / 2) 4 4
        (Or.inl rfl) ⟨rfl, rfl, rfl, rfl, rfl, rfl⟩ (by decide!) (by decide!)
        (by decide!) (by decide!)).2 (by decide)⟩⟩

/-- C2, refuted as stated. With only the forward key down and the candidate
`(9646899 / 2097152, 4.5)` in the floor cell `(4, 4)` of the map without
walls, an event that is neither key-down nor key-up leaves the position at
`(4.5, 4.5)`: `handleInput` reads the keys only on a keyboard event. -/
theorem handleInput_forward_other_event_counterexample :
    FloatVal.add binary32 (FloatVal.finite initialGlobals.playerX)
      (FloatVal.mul binary32 (FloatVal.finite initialGlobals.playerSpeed)
        (applyMath axisMath.cosf initialGlobals.playerAngle)) =
      FloatVal.finite (9646899 / 2097152) ∧
    FloatVal.add binary32 (FloatVal.finite initialGlobals.playerY)
      (FloatVal.mul binary32 (FloatVal.finite initialGlobals.playerSpeed)
        (applyMath axisMath.sinf initialGlobals.playerAngle)) =
      FloatVal.finite (9 / 2) ∧
    truncToInt (9646899 / 2097152) = 4 ∧ truncToInt (9 / 2) = 4 ∧ floorMap 4 4 = 0 ∧
    handleInput axisMath floorMap EventType.other forwardKeys initialGlobals =
      Outcome.running initialGlobals ∧
    initialGlobals.playerX ≠ 9646899 / 2097152 := by
  refine ⟨by decide!, by decide!, by decide!, by decide!, by decide, rfl, by decide!⟩

/-- C9. Opposite keys cancel. With forward and backward both down and no
strafe or rotation key down, an event other than quit leaves `playerX`,
`playerY` and `playerAngle` unchanged. With strafe-left and strafe-right both
down the strafe block does nothing: the call ends as it does with neither of
them down, the position it leaves is the one the forward and backward block
left, and when forward and backward are both down or both up the position is
unchanged. With rotate-left and rotate-right both down the call ends as it
does with neither of them down, and the angle it leaves is the angle it
found. -/
theorem handleInput_opposite_keys_cancel (M : MathLib) (worldMap : WorldMap) (e : EventType)
    (k : Keys) (g : Globals) :
    (e ≠ EventType.quit → k.w = true → k.s = true → k.a = false → k.d = false →
        k.left = false → k.right = false →
      ∃ g1, handleInput M worldMap e k g = Outcome.running g1 ∧
        g1.playerX = g.playerX ∧ g1.playerY = g.playerY ∧ g1.playerAngle = g.playerAngle) ∧
    (k.a = true → k.d = true →
      handleInput M worldMap e k g =
          handleInput M worldMap e { k with a := false, d := false } g ∧
        strafeLeftRight M worldMap k g = some g ∧
        (∀ g1, handleInput M worldMap e k g = Outcome.running g1 →
          (e = EventType.other ∧ g1 = g) ∨
            ∃ g2, moveForwardBackward M worldMap k (toggleRain k g) = some g2 ∧
              g1.playerX = g2.playerX ∧ g1.playerY = g2.playerY) ∧
        (e ≠ EventType.quit → k.w = k.s →
          ∃ g1, handleInput M worldMap e k g = Outcome.running g1 ∧
            g1.playerX = g.playerX ∧ g1.playerY = g.playerY)) ∧
    (k.left = true → k.right = true →
      handleInput M worldMap e k g =
          handleInput M worldMap e { k with left := false, right := false } g ∧
        ∀ g1, handleInput M worldMap e k g = Outcome.running g1 →
          g1.playerAngle = g.playerAngle) := by
  obtain ⟨tx, ty, ta, _, _⟩ := toggleRain_pose k g
  refine ⟨?_, ?_, ?_⟩
  · intro he hw hs ha hd hl hr
    cases e with
    | quit => exact absurd rfl he
    | other => exact ⟨g, rfl, rfl, rfl, rfl⟩
    | keyDown =>
      refine ⟨toggleRain k g, ?_, tx, ty, ta⟩
      simp [handleInput, moveForwardBackward, strafeLeftRight, rotateLeftRight,
        hw, hs, ha, hd, hl, hr]
    | keyUp =>
      refine ⟨toggleRain k g, ?_, tx, ty, ta⟩
      simp [handleInput, moveForwardBackward, strafeLeftRight, rotateLeftRight,
        hw, hs, ha, hd, hl, hr]
  · intro ha hd
    have hst : ∀ g2, strafeLeftRight M worldMap k g2 = some g2 :=
      fun g2 => strafeLeftRight_both M worldMap k g2 ha hd
    have hkey : ∀ e1, (e1 = EventType.keyDown ∨ e1 = EventType.keyUp) →
        handleInput M worldMap e1 k g =
          match moveForwardBackward M worldMap k (toggleRain k g) with
          | none => Outcome.undefined
          | some g2 => Outcome.running (rotateLeftRight k g2) := by
      intro e1 h1
      rw [handleInput_key M worldMap e1 k g h1]
      cases moveForwardBackward M worldMap k (toggleRain k g) with
      | none => rfl
      | some g2 => simp only [hst]
    refine ⟨?_, hst g, ?_, ?_⟩
    · cases e <;>
        simp [handleInput, moveForwardBackward, strafeLeftRight, rotateLeftRight, toggleRain,
          ha, hd]
    · intro g1 h
      have key : ∀ e1, (e1 = EventType.keyDown ∨ e1 = EventType.keyUp) →
          handleInput M worldMap e1 k g = Outcome.running g1 →
          ∃ g2, moveForwardBackward M worldMap k (toggleRain k g) = some g2 ∧
            g1.playerX = g2.playerX ∧ g1.playerY = g2.playerY := by
        intro e1 h1 h2
        rw [hkey e1 h1] at h2
        cases hfb : moveForwardBackward M worldMap k (toggleRain k g) with
        | none => simp [hfb] at h2
        | some g2 =>
          simp only [hfb, Outcome.running.injEq] at h2
          obtain ⟨rx, ry⟩ := rotateLeftRight_position k g2
          exact ⟨g2, rfl, by rw [← h2, rx], by rw [← h2, ry]⟩
      cases e with
      | quit => simp [handleInput] at h
      | other => left; simp [handleInput] at h; exact ⟨rfl, h.symm⟩
      | keyDown => exact Or.inr (key _ (Or.inl rfl) h)
      | keyUp => exact Or.inr (key _ (Or.inr rfl) h)
    · intro he hws
      have hfb : moveForwardBackward M worldMap k (toggleRain k g) = some (toggleRain k g) := by
        cases hw : k.w <;> simp [moveForwardBackward, hw, ← hws]
      obtain ⟨rx, ry⟩ := rotateLeftRight_position k (toggleRain k g)
      cases e with
      | quit => exact absurd rfl he
      | other => exact ⟨g, rfl, rfl, rfl⟩
      | keyDown =>
        exact ⟨rotateLeftRight k (toggleRain k g), by rw [hkey _ (Or.inl rfl), hfb],
          by rw [rx, tx], by rw [ry, ty]⟩
      | keyUp =>
        exact ⟨rotateLeftRight k (toggleRain k g), by rw [hkey _ (Or.inr rfl), hfb],
          by rw [rx, tx], by rw [ry, ty]⟩
  · intro hl hr
    constructor
    · cases e <;>
        simp [handleInput, moveForwardBackward, strafeLeftRight, rotateLeftRight, toggleRain,
          hl, hr]
    · intro g1 h
      have hrot : ∀ g2, rotateLeftRight k g2 = g2 := by
        intro g2; simp [rotateLeftRight, hl, hr]
      have key : ∀ e1, (e1 = EventType.keyDown ∨ e1 = EventType.keyUp) →
          handleInput M worldMap e1 k g = Outcome.running g1 →
          g1.playerAngle = g.playerAngle := by
        intro e1 h1 h2
        rw [handleInput_key M worldMap e1 k g h1] at h2
        cases hfb : moveForwardBackward M worldMap k (toggleRain k g) with
        | none => simp [hfb] at h2
        | some ga =>
          cases hsl : strafeLeftRight M worldMap k ga with
          | none => simp [hfb, hsl] at h2
          | some gb =>
            simp only [hfb, hsl, hrot, Outcome.running.injEq] at h2
            subst h2
            have e1 : ga.playerAngle = (toggleRain k g).playerAngle := by
              rcases moveForwardBackward_cases _ _ _ _ _ hfb with r | r
              · rw [r]
              · exact r.2.1
            have e2 : gb.playerAngle = ga.playerAngle := by
              rcases strafeLeftRight_cases _ _ _ _ _ hsl with r | r
              · rw [r]
              · exact r.2.1
            rw [e2, e1, ta]
      cases e with
      | quit => simp [handleInput] at h
      | other => simp [handleInput] at h; rw [← h]
      | keyDown => exact key _ (Or.inl rfl) h
      | keyUp => exact key _ (Or.inr rfl) h

/-- C9 at concrete inputs: the initial pose `(4.5, 4.5, 0)` in `ringMap`. With
forward and backward down the pose is unchanged. With strafe-left and
strafe-right alone the position stays `(4.5, 4.5)`. With forward and both
pairs down the player moves forward only, to `(9646899 / 2097152, 4.5)`, and
the angle stays `0`. -/
theorem handleInput_opposite_keys_cancel_witness :
    (∃ g1, handleInput axisMath ringMap EventType.keyDown forwardBackwardKeys initialGlobals =
        Outcome.running g1 ∧
      g1.playerX = initialGlobals.playerX ∧ g1.playerY = initialGlobals.playerY ∧
      g1.playerAngle = initialGlobals.playerAngle) ∧
    (∃ g1, handleInput axisMath ringMap EventType.keyDown strafeBothKeys initialGlobals =
        Outcome.running g1 ∧
      g1.playerX = initialGlobals.playerX ∧ g1.playerY = initialGlobals.playerY) ∧
    handleInput axisMath ringMap EventType.keyDown opposedKeys initialGlobals =
      Outcome.running { initialGlobals with playerX := 9646899 / 2097152 } ∧
    handleInput axisMath ringMap EventType.keyDown opposedKeys initialGlobals =
      handleInput axisMath ringMap EventType.keyDown
        { opposedKeys with a := false, d := false } initialGlobals ∧
    (handleInput axisMath ringMap EventType.keyDown opposedKeys initialGlobals =
        handleInput axisMath ringMap EventType.keyDown
          { opposedKeys with left := false, right := false } initialGlobals ∧
      ∀ g1, handleInput axisMath ringMap EventType.keyDown opposedKeys initialGlobals =
          Outcome.running g1 → g1.playerAngle = initialGlobals.playerAngle) :=
  ⟨(handleInput_opposite_keys_cancel axisMath ringMap EventType.keyDown forwardBackwardKeys
      initialGlobals).1 (by decide) rfl rfl rfl rfl rfl rfl,
    ((handleInput_opposite_keys_cancel axisMath ringMap EventType.keyDown strafeBothKeys
      initialGlobals).2.1 rfl rfl).2.2.2 (by decide) rfl,
    by decide!,
    ((handleInput_opposite_keys_cancel axisMath ringMap EventType.keyDown opposedKeys
      initialGlobals).2.1 rfl rfl).1,
    (handleInput_opposite_keys_cancel axisMath ringMap EventType.keyDown opposedKeys
      initialGlobals).2.2 rfl rfl⟩

/-- C10. The player never ends in a wall: when the cell at the truncated player
position is not a wall before `handleInput`, the event is not quit, and the
call is defined (every candidate position it computes truncates to indices
inside the grid), the call returns and the cell at the truncated player
position is not a wall after it. This covers a forward or backward move
followed by a strafe move in the same call. -/
theorem handleInput_never_into_wall (M : MathLib) (worldMap : WorldMap) (e : EventType)
    (k : Keys) (g : Globals) (he : e ≠ EventType.quit)
    (h0 : isCollision worldMap g.playerX g.playerY = some false)
    (hdef : handleInput M worldMap e k g ≠ Outcome.undefined) :
    ∃ g1, handleInput M worldMap e k g = Outcome.running g1 ∧
      isCollision worldMap g1.playerX g1.playerY = some false := by
  obtain ⟨tx, ty, _, _, _⟩ := toggleRain_pose k g
  have key : ∀ e1, (e1 = EventType.keyDown ∨ e1 = EventType.keyUp) →
      handleInput M worldMap e1 k g ≠ Outcome.undefined →
      ∃ g1, handleInput M worldMap e1 k g = Outcome.running g1 ∧
        isCollision worldMap g1.playerX g1.playerY = some false := by
    intro e1 hk hd
    rw [handleInput_key M worldMap e1 k g hk] at hd ⊢
    cases h1 : moveForwardBackward M worldMap k (toggleRain k g) with
    | none => simp [h1] at hd
    | some ga =>
      cases h2 : strafeLeftRight M worldMap k ga with
      | none => simp [h1, h2] at hd
      | some gb =>
        refine ⟨rotateLeftRight k gb, by simp [h2], ?_⟩
        obtain ⟨rx, ry⟩ := rotateLeftRight_position k gb
        rw [rx, ry]
        have ea : isCollision worldMap ga.playerX ga.playerY = some false := by
          rcases moveForwardBackward_cases _ _ _ _ _ h1 with r | r
          · rw [r, tx, ty]; exact h0
          · exact r.1
        rcases strafeLeftRight_cases _ _ _ _ _ h2 with r | r
        · rw [r]; exact ea
        · exact r.1
  cases e with
  | quit => exact absurd rfl he
  | other => exact ⟨g, rfl, h0⟩
  | keyDown => exact key _ (Or.inl rfl) hdef
  | keyUp => exact key _ (Or.inr rfl) hdef

/-- C10 at a concrete input: forward and strafe-right in one call from the
initial pose in `ringMap`; both moves are applied, each rounded to binary32. -/
theorem handleInput_never_into_wall_witness :
    EventType.keyDown ≠ EventType.quit ∧
    isCollision ringMap initialGlobals.playerX initialGlobals.playerY = some false ∧
    handleInput axisMath ringMap EventType.keyDown forwardStrafeKeys initialGlobals =
      Outcome.running
        { initialGlobals with playerX := 9646899 / 2097152, playerY := 9646899 / 2097152 } ∧
    ∃ g1, handleInput axisMath ringMap EventType.keyDown forwardStrafeKeys initialGlobals =
        Outcome.running g1 ∧
      isCollision ringMap g1.playerX g1.playerY = some false :=
  ⟨by decide, by decide!, by decide!,
    handleInput_never_into_wall axisMath ringMap EventType.keyDown forwardStrafeKeys
      initialGlobals (by decide) (by decide!) (by decide!)⟩

/-! ## Rain particles -/

/-- The loop body on a particle that stays inside the viewport advances it in
place. -/
theorem moveBody_keep (pre rest : List Raindrop) (r : Raindrop) (size : Nat)
    (h : ¬ r.y + r.speed > (SCREEN_HEIGHT : ℚ)) :
    moveBody { cells := pre ++ r :: rest, size := size } pre.length =
      some { cells := pre ++ advanceOne r :: rest, size := size } := by
  have hget : (pre ++ r :: rest)[pre.length]? = some r := by
    rw [List.getElem?_append_right (le_refl _)]
    simp
  have hset : (pre ++ r :: rest).set pre.length (advanceOne r) = pre ++ advanceOne r :: rest := by
    simp
  unfold moveBody
  simp only [hget]
  rw [if_neg h]
  exact congrArg some (congrArg (fun c => RainVector.mk c size) hset)

/-- When no particle crosses the viewport height the loop advances every cell
and leaves the size alone. -/
theorem moveLoop_keep (rest : List Raindrop) :
    ∀ (pre : List Raindrop) (size : Nat),
      (∀ p ∈ rest, ¬ p.y + p.speed > (SCREEN_HEIGHT : ℚ)) →
      moveLoop rest.length pre.length { cells := pre ++ rest, size := size } =
        some { cells := pre ++ rest.map advanceOne, size := size } := by
  induction rest with
  | nil => intro pre size _; simp [moveLoop]
  | cons r rs ih =>
    intro pre size h
    have hr := h r (List.mem_cons_self _ _)
    have hrs : ∀ p ∈ rs, ¬ p.y + p.speed > (SCREEN_HEIGHT : ℚ) :=
      fun p hp => h p (List.mem_cons_of_mem _ hp)
    have step := ih (pre ++ [advanceOne r]) size hrs
    simp only [List.length_append, List.length_singleton, List.append_assoc,
      List.singleton_append] at step
    simp only [List.length_cons, moveLoop, moveBody_keep pre rs r size hr, List.map_cons]
    exact step

/-- A call of `moveRaindrops` in which no particle crosses the viewport height
advances every particle and removes none. -/
theorem moveRaindrops_keep (raindrops : List Raindrop)
    (h : ∀ p ∈ raindrops, ¬ p.y + p.speed > (SCREEN_HEIGHT : ℚ)) :
    moveRaindrops raindrops = some (raindrops.map advanceOne) := by
  have := moveLoop_keep raindrops [] raindrops.length h
  simp only [List.length_nil, List.nil_append] at this
  simp [moveRaindrops, this]

/-- The loop body never reads outside the storage nor pops an empty vector
while at least as many live elements as iterations remain. -/
theorem moveBody_defined (v : RainVector) (i n : Nat)
    (hlen : v.cells.length = i + (n + 1)) (hlo : n + 1 ≤ v.size) (hhi : v.size ≤ v.cells.length) :
    ∃ v1, moveBody v i = some v1 ∧ v1.cells.length = (i + 1) + n ∧ n ≤ v1.size ∧
      v1.size ≤ v1.cells.length ∧ v.size ≤ v1.size + 1 := by
  have hi : i < v.cells.length := by omega
  obtain ⟨m, hm⟩ : ∃ m, v.size = m + 1 := ⟨v.size - 1, by omega⟩
  unfold moveBody
  rw [List.getElem?_eq_getElem hi]
  simp only
  split_ifs with hgt
  · rw [hm]
    simp only
    have hm2 : m < (v.cells.set i
        { x := v.cells[i].x, y := v.cells[i].y + v.cells[i].speed,
          speed := v.cells[i].speed }).length := by
      rw [List.length_set]; omega
    rw [List.getElem?_eq_getElem hm2]
    refine ⟨_, rfl, ?_, ?_, ?_, ?_⟩
    · simp only [List.length_set]; omega
    · simp only; omega
    · simp only [List.length_set]; omega
    · simp only; omega
  · refine ⟨_, rfl, ?_, ?_, ?_, ?_⟩
    · simp only [List.length_set]; omega
    · simp only; omega
    · simp only [List.length_set]; omega
    · simp only; omega

/-- The loop is defined while at least as many live elements as iterations
remain. -/
theorem moveLoop_defined (n : Nat) :
    ∀ (i : Nat) (v : RainVector), v.cells.length = i + n → n ≤ v.size →
      v.size ≤ v.cells.length →
      ∃ v1, moveLoop n i v = some v1 ∧ v1.size ≤ v1.cells.length := by
  induction n with
  | zero => intro i v _ _ h; exact ⟨v, rfl, h⟩
  | succ n ih =>
    intro i v hlen hlo hhi
    obtain ⟨v1, h1, l1, lo1, hi1, _⟩ := moveBody_defined v i n hlen hlo hhi
    obtain ⟨v2, h2, hi2⟩ := ih (i + 1) v1 l1 lo1 hi1
    exact ⟨v2, by simp [moveLoop, h1, h2], hi2⟩

/-- `moveRaindrops` returns on every particle list: the model never reaches
its undefined cases. -/
theorem moveRaindrops_defined (raindrops : List Raindrop) :
    ∃ out, moveRaindrops raindrops = some out := by
  obtain ⟨v, hv, _⟩ := moveLoop_defined raindrops.length 0
    { cells := raindrops, size := raindrops.length } (by simp) (by simp) (by simp)
  exact ⟨v.cells.take v.size, by simp [moveRaindrops, hv]⟩

/-- A leaving particle is still leaving after one more advance. -/
theorem leaving_advanceOne (p : Raindrop) (h : leaving p) : leaving (advanceOne p) := by
  obtain ⟨h1, h2⟩ := h
  refine ⟨?_, h2⟩
  show p.y + p.speed + p.speed > (SCREEN_HEIGHT : ℚ)
  linarith

/-- The loop body on a vector whose cells are all leaving removes one element
and keeps all cells leaving. -/
theorem moveBody_leaving (v : RainVector) (i n : Nat)
    (hlen : v.cells.length = i + (n + 1)) (hsize : v.size = n + 1)
    (hall : ∀ p ∈ v.cells, leaving p) :
    ∃ v1, moveBody v i = some v1 ∧ v1.cells.length = (i + 1) + n ∧ v1.size = n ∧
      ∀ p ∈ v1.cells, leaving p := by
  have hi : i < v.cells.length := by omega
  have hri : leaving v.cells[i] := hall _ (List.getElem_mem _)
  have hmoved : leaving (advanceOne v.cells[i]) := leaving_advanceOne _ hri
  have hcells1 : ∀ p ∈ v.cells.set i (advanceOne v.cells[i]), leaving p := by
    intro p hp
    rcases List.mem_or_eq_of_mem_set hp with h | h
    · exact hall p h
    · rw [h]; exact hmoved
  have hn : n < (v.cells.set i (advanceOne v.cells[i])).length := by
    rw [List.length_set]; omega
  have hgt : v.cells[i].y + v.cells[i].speed > (SCREEN_HEIGHT : ℚ) := hri.1
  unfold moveBody
  rw [List.getElem?_eq_getElem hi]
  simp only
  rw [if_pos hgt, hsize]
  simp only
  have hn2 : n < (v.cells.set i
      { x := v.cells[i].x, y := v.cells[i].y + v.cells[i].speed,
        speed := v.cells[i].speed }).length := by
    rw [List.length_set]; omega
  rw [List.getElem?_eq_getElem hn2]
  refine ⟨_, rfl, ?_, rfl, ?_⟩
  · simp only [List.length_set]; omega
  · intro p hp
    rcases List.mem_or_eq_of_mem_set hp with h | h
    · exact hcells1 p h
    · rw [h]; exact hcells1 _ (List.getElem_mem _)

/-- The loop on a vector whose cells are all leaving ends with size zero. -/
theorem moveLoop_leaving (n : Nat) :
    ∀ (i : Nat) (v : RainVector), v.cells.length = i + n → v.size = n →
      (∀ p ∈ v.cells, leaving p) →
      ∃ v1, moveLoop n i v = some v1 ∧ v1.size = 0 := by
  induction n with
  | zero => intro i v _ h _; exact ⟨v, rfl, h⟩
  | succ n ih =>
    intro i v hlen hsize hall
    obtain ⟨v1, h1, l1, s1, a1⟩ := moveBody_leaving v i n hlen hsize hall
    obtain ⟨v2, h2, s2⟩ := ih (i + 1) v1 l1 s1 a1
    exact ⟨v2, by simp [moveLoop, h1, h2], s2⟩

/-- A call of `moveRaindrops` in which every particle crosses the viewport
height empties the list. -/
theorem moveRaindrops_all_leaving (raindrops : List Raindrop)
    (h : ∀ p ∈ raindrops, leaving p) : moveRaindrops raindrops = some [] := by
  obtain ⟨v, hv, hs⟩ := moveLoop_leaving raindrops.length 0
    { cells := raindrops, size := raindrops.length } (by simp) rfl h
  simp [moveRaindrops, hv, hs]


/-- C3, evaluated at the failing input. On a list whose first particle leaves
the viewport the swap-remove copies the last particle over it and the loop
moves on: the copy is never advanced, so the result is not a permutation of
the specification's update of the same list. On the second list a particle
that stays inside the viewport is dropped and one that should leave survives. -/
theorem moveRaindrops_skips_swapped_in :
    moveRaindrops [⟨0, 600, 5⟩, ⟨1, 0, 5⟩] = some [⟨1, 0, 5⟩] ∧
    advanceSpec [⟨0, 600, 5⟩, ⟨1, 0, 5⟩] = [⟨1, 5, 5⟩] ∧
    (¬ ∃ out, moveRaindrops [⟨0, 600, 5⟩, ⟨1, 0, 5⟩] = some out ∧
      out.Perm (advanceSpec [⟨0, 600, 5⟩, ⟨1, 0, 5⟩])) ∧
    moveRaindrops [⟨0, 600, 5⟩, ⟨1, 0, 5⟩, ⟨2, 600, 5⟩] = some [⟨2, 600, 5⟩] ∧
    advanceSpec [⟨0, 600, 5⟩, ⟨1, 0, 5⟩, ⟨2, 600, 5⟩] = [⟨1, 5, 5⟩] := by
  have h1 : moveRaindrops [⟨0, 600, 5⟩, ⟨1, 0, 5⟩] = some [⟨1, 0, 5⟩] := by decide!
  have h2 : advanceSpec [⟨0, 600, 5⟩, ⟨1, 0, 5⟩] = [⟨1, 5, 5⟩] := by decide!
  refine ⟨h1, h2, ?_, by decide!, by decide!⟩
  rintro ⟨out, hout, hperm⟩
  rw [h1] at hout
  rw [h2, ← Option.some.inj hout, List.perm_singleton] at hperm
  have hy := congrArg Raindrop.y (List.cons.inj hperm).1
  norm_num at hy

/-- C4, as amended. For every positive `RAND_MAX` and every value `r` of
`rand()` with `r ≤ RAND_MAX`, `generateRaindrops` appends exactly one particle
with `0 ≤ x ≤ 800`, `y = 0` and `speed = 5`, after the particles that were
there, which it leaves unchanged. -/
theorem generateRaindrops_appends (RAND_MAX r : Nat) (raindrops : List Raindrop)
    (hmax : 0 < RAND_MAX) (hr : r ≤ RAND_MAX) :
    ∃ p, generateRaindrops RAND_MAX r raindrops = raindrops ++ [p] ∧
      0 ≤ p.x ∧ p.x ≤ (SCREEN_WIDTH : ℚ) ∧ p.y = 0 ∧ p.speed = 5 := by
  refine ⟨⟨(r : ℚ) / (RAND_MAX : ℚ) * (SCREEN_WIDTH : ℚ), 0, 5⟩, rfl, ?_, ?_, rfl, rfl⟩
  · have : (0 : ℚ) ≤ (SCREEN_WIDTH : ℚ) := by norm_num [SCREEN_WIDTH]
    positivity
  · have hpos : (0 : ℚ) < (RAND_MAX : ℚ) := by exact_mod_cast hmax
    have hle : (r : ℚ) ≤ (RAND_MAX : ℚ) := by exact_mod_cast hr
    have h1 : (r : ℚ) / (RAND_MAX : ℚ) ≤ 1 := (div_le_one hpos).2 hle
    have hw : (0 : ℚ) ≤ (SCREEN_WIDTH : ℚ) := by norm_num [SCREEN_WIDTH]
    show (r : ℚ) / (RAND_MAX : ℚ) * (SCREEN_WIDTH : ℚ) ≤ (SCREEN_WIDTH : ℚ)
    nlinarith

/-- C4 as amended, at a concrete input: `RAND_MAX = 32767`, `rand() = 16384`. -/
theorem generateRaindrops_appends_witness :
    0 < 32767 ∧ 16384 ≤ 32767 ∧
    ∃ p, generateRaindrops 32767 16384 [⟨3, 10, 5⟩] = [⟨3, 10, 5⟩] ++ [p] ∧
      0 ≤ p.x ∧ p.x ≤ (SCREEN_WIDTH : ℚ) ∧ p.y = 0 ∧ p.speed = 5 :=
  ⟨by decide, by decide,
    generateRaindrops_appends 32767 16384 [⟨3, 10, 5⟩] (by decide) (by decide)⟩

/-- C4, refuted as stated. When `rand()` returns `RAND_MAX` the new particle
has `x = 800`, which is not below the viewport width. -/
theorem generateRaindrops_x_reaches_width :
    generateRaindrops 32767 32767 [] = [⟨800, 0, 5⟩] ∧
    ¬ ∃ p, generateRaindrops 32767 32767 [] = [] ++ [p] ∧
      0 ≤ p.x ∧ p.x < (SCREEN_WIDTH : ℚ) ∧ p.y = 0 ∧ p.speed = 5 := by
  have h : generateRaindrops 32767 32767 [] = [⟨800, 0, 5⟩] := by decide!
  refine ⟨h, ?_⟩
  rintro ⟨p, hp, _, hlt, _, _⟩
  rw [h] at hp
  simp only [List.nil_append, List.cons.injEq, and_true] at hp
  rw [← hp] at hlt
  norm_num [SCREEN_WIDTH] at hlt

/-! ### Draining and filling -/

/-- The empty particle list stays empty under any number of calls. -/
theorem moveTimes_nil (n : Nat) : moveTimes n [] = some [] := by
  induction n with
  | zero => rfl
  | succ n ih =>
    have h : moveRaindrops [] = some [] := by decide
    simp [moveTimes, h, ih]

/-- Calls of `moveRaindrops` compose. -/
theorem moveTimes_add (a b : Nat) :
    ∀ raindrops, moveTimes (a + b) raindrops =
      (moveTimes a raindrops).bind (moveTimes b) := by
  induction a with
  | zero => intro raindrops; simp [moveTimes]
  | succ a ih =>
    intro raindrops
    rw [Nat.succ_add]
    cases h : moveRaindrops raindrops with
    | none => simp [moveTimes, h]
    | some next => simp [moveTimes, h, ih]

/-- Particles of speed 5 at height `5 * j` are all gone after `120 - j + 1`
calls of `moveRaindrops`. -/
theorem moveTimes_drains (d : Nat) :
    ∀ (j : Nat) (raindrops : List Raindrop), j + d = 120 →
      (∀ p ∈ raindrops, p.speed = 5 ∧ p.y = 5 * (j : ℚ)) →
      moveTimes (d + 1) raindrops = some [] := by
  induction d with
  | zero =>
    intro j raindrops hj h
    have hj120 : (j : ℚ) = 120 := by
      have : j = 120 := by omega
      rw [this]; norm_num
    have hall : ∀ p ∈ raindrops, leaving p := by
      intro p hp
      obtain ⟨hs, hy⟩ := h p hp
      unfold leaving
      rw [hs, hy, hj120]
      norm_num [SCREEN_HEIGHT]
    simp [moveTimes, moveRaindrops_all_leaving raindrops hall]
  | succ d ih =>
    intro j raindrops hj h
    have hjlt : (j : ℚ) + 1 ≤ 120 := by
      have : j + 1 ≤ 120 := by omega
      exact_mod_cast this
    have hkeep : ∀ p ∈ raindrops, ¬ p.y + p.speed > (SCREEN_HEIGHT : ℚ) := by
      intro p hp
      obtain ⟨hs, hy⟩ := h p hp
      rw [hs, hy]
      have : (SCREEN_HEIGHT : ℚ) = 600 := by norm_num [SCREEN_HEIGHT]
      rw [this]
      intro hgt
      linarith
    have hnext : ∀ p ∈ raindrops.map advanceOne,
        p.speed = 5 ∧ p.y = 5 * ((j + 1 : Nat) : ℚ) := by
      intro p hp
      obtain ⟨q, hq, rfl⟩ := List.mem_map.1 hp
      obtain ⟨hs, hy⟩ := h q hq
      refine ⟨hs, ?_⟩
      show q.y + q.speed = 5 * ((j + 1 : Nat) : ℚ)
      rw [hs, hy]; push_cast; ring
    have step := ih (j + 1) (raindrops.map advanceOne) (by omega) hnext
    rw [moveTimes, moveRaindrops_keep raindrops hkeep]
    exact step

/-- Every spawned particle has speed 5 and height 0. -/
theorem spawnAll_fresh (RAND_MAX : Nat) (rs : List Nat) :
    ∀ p ∈ spawnAll RAND_MAX rs, p.speed = 5 ∧ p.y = 0 := by
  have gen : ∀ (rs : List Nat) (acc : List Raindrop),
      (∀ p ∈ acc, p.speed = 5 ∧ p.y = 0) →
      ∀ p ∈ rs.foldl (fun raindrops r => generateRaindrops RAND_MAX r raindrops) acc,
        p.speed = 5 ∧ p.y = 0 := by
    intro rs
    induction rs with
    | nil => intro acc h; simpa using h
    | cons r rs ih =>
      intro acc h
      rw [List.foldl_cons]
      apply ih
      intro p hp
      simp only [generateRaindrops, List.mem_append, List.mem_singleton] at hp
      rcases hp with hp | hp
      · exact h p hp
      · rw [hp]; exact ⟨rfl, rfl⟩
  exact gen rs [] (by simp)

/-- One particle is spawned per value of `rand()`. -/
theorem spawnAll_length (RAND_MAX : Nat) (rs : List Nat) :
    (spawnAll RAND_MAX rs).length = rs.length := by
  have gen : ∀ (rs : List Nat) (acc : List Raindrop),
      (rs.foldl (fun raindrops r => generateRaindrops RAND_MAX r raindrops) acc).length =
        acc.length + rs.length := by
    intro rs
    induction rs with
    | nil => intro acc; simp
    | cons r rs ih =>
      intro acc
      rw [List.foldl_cons, ih]
      simp [generateRaindrops]
      omega
  simpa using gen rs []

/-- C5. One hundred particles spawned by `generateRaindrops`, whatever the
values of `rand()`, are all removed by repeated calls of `moveRaindrops`: the
list is empty after 121 calls and after every larger number of calls. -/
theorem moveRaindrops_drains_hundred (RAND_MAX : Nat) (rs : List Nat)
    (hlen : rs.length = 100) :
    (spawnAll RAND_MAX rs).length = 100 ∧
    ∃ n, moveTimes n (spawnAll RAND_MAX rs) = some [] ∧
      ∀ m, n ≤ m → moveTimes m (spawnAll RAND_MAX rs) = some [] := by
  have h121 : moveTimes 121 (spawnAll RAND_MAX rs) = some [] := by
    apply moveTimes_drains 120 0 _ (by omega)
    intro p hp
    obtain ⟨hs, hy⟩ := spawnAll_fresh RAND_MAX rs p hp
    exact ⟨hs, by rw [hy]; norm_num⟩
  refine ⟨by rw [spawnAll_length, hlen], 121, h121, ?_⟩
  intro m hm
  obtain ⟨c, rfl⟩ := Nat.exists_eq_add_of_le hm
  rw [moveTimes_add, h121]
  exact moveTimes_nil c

/-- C5 at a concrete input: the hundred values `0, ..., 99` of `rand()`. -/
theorem moveRaindrops_drains_hundred_witness :
    hundredRands.length = 100 ∧
    (spawnAll 32767 hundredRands).length = 100 ∧
    ∃ n, moveTimes n (spawnAll 32767 hundredRands) = some [] ∧
      ∀ m, n ≤ m → moveTimes m (spawnAll 32767 hundredRands) = some [] :=
  ⟨by decide, moveRaindrops_drains_hundred 32767 hundredRands (by decide)⟩

/-- While every particle has speed 5 and height at most `5 * j`, and `j` plus
the number of frames stays within 120, each frame adds one particle and
removes none. -/
theorem rainFrames_fill (RAND_MAX : Nat) (rs : List Nat) :
    ∀ (j : Nat) (raindrops : List Raindrop), j + rs.length ≤ 120 →
      (∀ p ∈ raindrops, p.speed = 5 ∧ p.y ≤ 5 * (j : ℚ)) →
      ∃ out, rainFrames RAND_MAX rs raindrops = some out ∧
        out.length = raindrops.length + rs.length := by
  induction rs with
  | nil => intro j raindrops _ _; exact ⟨raindrops, rfl, by simp⟩
  | cons r rs ih =>
    intro j raindrops hj h
    simp only [List.length_cons] at hj
    have hjlt : (j : ℚ) + 1 ≤ 120 := by
      have : j + 1 ≤ 120 := by omega
      exact_mod_cast this
    have hj0 : (0 : ℚ) ≤ (j : ℚ) := Nat.cast_nonneg j
    have hgen : ∀ p ∈ generateRaindrops RAND_MAX r raindrops,
        p.speed = 5 ∧ p.y ≤ 5 * (j : ℚ) := by
      intro p hp
      simp only [generateRaindrops, List.mem_append, List.mem_singleton] at hp
      rcases hp with hp | hp
      · exact h p hp
      · rw [hp]; exact ⟨rfl, by show (0 : ℚ) ≤ 5 * (j : ℚ); linarith⟩
    have hkeep : ∀ p ∈ generateRaindrops RAND_MAX r raindrops,
        ¬ p.y + p.speed > (SCREEN_HEIGHT : ℚ) := by
      intro p hp
      obtain ⟨hs, hy⟩ := hgen p hp
      have : (SCREEN_HEIGHT : ℚ) = 600 := by norm_num [SCREEN_HEIGHT]
      rw [this, hs]
      intro hgt
      linarith
    have hnext : ∀ p ∈ (generateRaindrops RAND_MAX r raindrops).map advanceOne,
        p.speed = 5 ∧ p.y ≤ 5 * ((j + 1 : Nat) : ℚ) := by
      intro p hp
      obtain ⟨q, hq, rfl⟩ := List.mem_map.1 hp
      obtain ⟨hs, hy⟩ := hgen q hq
      refine ⟨hs, ?_⟩
      show q.y + q.speed ≤ 5 * ((j + 1 : Nat) : ℚ)
      rw [hs]; push_cast; linarith
    obtain ⟨out, hout, hlen⟩ := ih (j + 1) _ (by omega) hnext
    refine ⟨out, ?_, ?_⟩
    · simp only [rainFrames, rainFrame, if_true, moveRaindrops_keep _ hkeep]
      exact hout
    · rw [hlen]
      simp [generateRaindrops]
      omega

/-- C6. From the empty particle list with the rain enabled, `N` frames
(`generateRaindrops` then `moveRaindrops` in each) with `N ≤ 120` leave exactly
`N` particles, whatever the values of `rand()`. -/
theorem rainFrames_count (RAND_MAX : Nat) (rs : List Nat) (hN : rs.length ≤ 120) :
    ∃ out, rainFrames RAND_MAX rs [] = some out ∧ out.length = rs.length := by
  obtain ⟨out, hout, hlen⟩ := rainFrames_fill RAND_MAX rs 0 [] (by omega) (by simp)
  exact ⟨out, hout, by simpa using hlen⟩

/-- C6 at a concrete input: one hundred frames. -/
theorem rainFrames_count_witness :
    hundredRands.length ≤ 120 ∧
    ∃ out, rainFrames 32767 hundredRands [] = some out ∧ out.length = hundredRands.length :=
  ⟨by decide, rainFrames_count 32767 hundredRands (by decide)⟩


/-! ## Drawing -/

/-- The integer divisions of `drawMap`: `800 / 8`, `600 / 8` and `600 / 16`. -/
theorem tile_sizes :
    Int.tdiv SCREEN_WIDTH MAP_WIDTH = 100 ∧ Int.tdiv SCREEN_HEIGHT MAP_HEIGHT = 75 ∧
      Int.tdiv SCREEN_HEIGHT (2 * MAP_HEIGHT) = 37 := by
  decide

/-- The commands of `drawMap` are the commands of its 64 cells. -/
theorem mem_drawMap (M : MathLib) (worldMap : WorldMap) (g : Globals) (c : DrawCommand) :
    c ∈ drawMap M worldMap g ↔ ∃ (x : Fin 8) (y : Fin 8), c ∈ drawCell M worldMap g x y := by
  unfold drawMap
  simp only [List.mem_flatMap, List.mem_finRange, true_and]

/-- The wall tile of a cell, with the divisions carried out. -/
theorem wallTile_eq (x y : Fin 8) :
    wallTile x y =
      renderTexture Texture.wallTexture ((x.val : Int) * 100) ((y.val : Int) * 75) 100 75 := by
  obtain ⟨tw, th, _⟩ := tile_sizes
  simp only [wallTile, tw, th]

/-- A wall cell emits its wall tile when `dot > 0.7`, and nothing otherwise. -/
theorem drawCell_wall (M : MathLib) (worldMap : WorldMap) (g : Globals) (x y : Fin 8)
    (hwall : worldMap x y = 1) :
    drawCell M worldMap g x y =
      if (cellDot M g x y).gt (FloatVal.finite double_0_7) then [wallTile x y] else [] := by
  simp only [drawCell, if_pos hwall, wallTile]

/-- A cell that is not a wall emits its floor tile and its ceiling tile. -/
theorem drawCell_floor (M : MathLib) (worldMap : WorldMap) (g : Globals) (x y : Fin 8)
    (hfloor : worldMap x y ≠ 1) :
    drawCell M worldMap g x y =
      [renderTexture Texture.floorTexture ((x.val : Int) * 100) ((y.val : Int) * 75) 100 75,
       renderTexture Texture.ceilingTexture ((x.val : Int) * 100) 0 100 37] := by
  obtain ⟨tw, th, tc⟩ := tile_sizes
  simp only [drawCell, if_neg hfloor, tw, th, tc]

/-- The wall tile of cell `(x, y)` is emitted by no other cell. -/
theorem wallTile_mem_drawCell (M : MathLib) (worldMap : WorldMap) (g : Globals)
    (x y x1 y1 : Fin 8) (h : wallTile x y ∈ drawCell M worldMap g x1 y1) :
    x1 = x ∧ y1 = y := by
  by_cases hw : worldMap x1 y1 = 1
  · rw [drawCell_wall M worldMap g x1 y1 hw] at h
    split_ifs at h
    · simp only [List.mem_singleton, wallTile_eq, renderTexture, DrawCommand.mk.injEq,
        true_and, and_true] at h
      constructor
      · apply Fin.ext; omega
      · apply Fin.ext; omega
    · simp at h
  · rw [drawCell_floor M worldMap g x1 y1 hw, wallTile_eq] at h
    simp [renderTexture] at h

/-- The wall tile of a wall cell is among the commands of `drawMap` exactly
when the cell's `dot` compares greater than `0.7`. -/
theorem wallTile_mem_drawMap (M : MathLib) (worldMap : WorldMap) (g : Globals) (x y : Fin 8)
    (hwall : worldMap x y = 1) :
    wallTile x y ∈ drawMap M worldMap g ↔
      (cellDot M g x y).gt (FloatVal.finite double_0_7) = true := by
  rw [mem_drawMap]
  constructor
  · rintro ⟨x1, y1, h⟩
    obtain ⟨rfl, rfl⟩ := wallTile_mem_drawCell M worldMap g x y x1 y1 h
    rw [drawCell_wall M worldMap g x1 y1 hwall] at h
    split_ifs at h with hgt
    · exact hgt
    · simp at h
  · intro hgt
    refine ⟨x, y, ?_⟩
    rw [drawCell_wall M worldMap g x y hwall, if_pos hgt]
    simp

/-- The difference of a float with itself is zero. -/
theorem sub_self_finite (fmt : FloatFormat) (q : ℚ) :
    FloatVal.sub fmt (FloatVal.finite q) (FloatVal.finite q) = FloatVal.finite 0 := by
  simp [FloatVal.sub, FloatVal.neg, FloatVal.add, roundFloat]

/-- Zero times the value of `cos` or `sin` is zero or NaN. -/
theorem zero_mul_applyMath (f : ℚ → ℚ) (v : FloatVal) :
    FloatVal.mul binary32 (FloatVal.finite 0) (applyMath f v) = FloatVal.finite 0 ∨
      FloatVal.mul binary32 (FloatVal.finite 0) (applyMath f v) = FloatVal.nan := by
  cases v <;> simp [applyMath, FloatVal.mul, roundFloat]

/-- At the player's own position `dot` is zero or NaN. -/
theorem cellDot_at_player (M : MathLib) (g : Globals) (x y : Fin 8)
    (hx : (x.val : ℚ) = g.playerX) (hy : (y.val : ℚ) = g.playerY) :
    cellDot M g x y = FloatVal.finite 0 ∨ cellDot M g x y = FloatVal.nan := by
  have hdx : cellDx g x = FloatVal.finite 0 := by
    unfold cellDx; rw [hx]; exact sub_self_finite _ _
  have hdy : cellDy g y = FloatVal.finite 0 := by
    unfold cellDy; rw [hy]; exact sub_self_finite _ _
  have hdist : cellDistance M g x y = FloatVal.finite (M.sqrtf 0) := by
    simp [cellDistance, hdx, hdy, FloatVal.mul, FloatVal.add, roundFloat, applySqrt]
  have hnum : dotNumerator M g x y = FloatVal.finite 0 ∨
      dotNumerator M g x y = FloatVal.nan := by
    unfold dotNumerator
    rw [hdx, hdy]
    rcases zero_mul_applyMath M.cosf g.playerAngle with h1 | h1 <;>
      rcases zero_mul_applyMath M.sinf g.playerAngle with h2 | h2 <;>
      simp [h1, h2, FloatVal.add, roundFloat]
  unfold cellDot
  rw [hdist]
  rcases hnum with h | h
  · rw [h]
    by_cases hs : M.sqrtf 0 = 0
    · right; simp [FloatVal.div, hs]
    · left; simp [FloatVal.div, hs, roundFloat]
  · rw [h]; right; rfl

/-- C8, as amended. For a wall cell `(x, y)`, `drawMap` draws the wall tile
exactly when the binary32 value `dot` of source line 217 compares greater
than the literal `0.7`. When the computed `distance` is finite and not zero
that is when the computed numerator over it, rounded to binary32, is above
`0.7`. A cell at the player's own position (`0 / 0` is NaN) is not drawn, and
a cell whose `dot` is `0.7` or less is not drawn. A cell whose computed
`distance` is zero while the computed numerator is positive is drawn (`dot`
is plus infinity). -/
theorem drawMap_wall_iff (M : MathLib) (worldMap : WorldMap) (g : Globals) (x y : Fin 8)
    (hwall : worldMap x y = 1) :
    (wallTile x y ∈ drawMap M worldMap g ↔
      (cellDot M g x y).gt (FloatVal.finite double_0_7) = true) ∧
    (∀ n d, dotNumerator M g x y = FloatVal.finite n →
      cellDistance M g x y = FloatVal.finite d → d ≠ 0 →
      (wallTile x y ∈ drawMap M worldMap g ↔
        (roundFloat binary32 (n / d)).gt (FloatVal.finite double_0_7) = true)) ∧
    ((x.val : ℚ) = g.playerX → (y.val : ℚ) = g.playerY →
      wallTile x y ∉ drawMap M worldMap g) ∧
    (∀ q, cellDot M g x y = FloatVal.finite q → q ≤ double_0_7 →
      wallTile x y ∉ drawMap M worldMap g) ∧
    (∀ n, dotNumerator M g x y = FloatVal.finite n → 0 < n →
      cellDistance M g x y = FloatVal.finite 0 →
      wallTile x y ∈ drawMap M worldMap g) := by
  have main := wallTile_mem_drawMap M worldMap g x y hwall
  refine ⟨main, ?_, ?_, ?_, ?_⟩
  · intro n d hn hd hd0
    rw [main, cellDot, hn, hd]
    simp only [FloatVal.div, if_neg hd0]
  · intro hx hy
    rw [main]
    rcases cellDot_at_player M g x y hx hy with h | h
    · rw [h]
      simp only [FloatVal.gt, decide_eq_true_eq, not_lt]
      norm_num [double_0_7]
    · rw [h]; simp [FloatVal.gt]
  · intro q hq hle
    rw [main, hq]
    simp only [FloatVal.gt, decide_eq_true_eq, not_lt]
    exact hle
  · intro n hn hpos hd
    rw [main, cellDot, hn, hd]
    have hne : n ≠ 0 := ne_of_gt hpos
    simp [FloatVal.div, hne, hpos, FloatVal.gt]

/-- C8 as amended, at a concrete input: from the corner `(4, 4)` facing east,
the wall cell `(7, 4)` of `ringMap` has `distance = 3` and `dot = 1`, and its
wall tile is drawn. -/
theorem drawMap_wall_iff_witness :
    ringMap 7 4 = 1 ∧
    cellDistance axisMath cornerGlobals 7 4 = FloatVal.finite 3 ∧
    cellDot axisMath cornerGlobals 7 4 = FloatVal.finite 1 ∧
    wallTile 7 4 = renderTexture Texture.wallTexture 700 300 100 75 ∧
    wallTile 7 4 ∈ drawMap axisMath ringMap cornerGlobals :=
  ⟨by decide, by decide!, by decide!, by decide!,
    (drawMap_wall_iff axisMath ringMap cornerGlobals 7 4 (by decide)).1.2 (by decide!)⟩

/-- C8, refuted as stated. With the player at `(-2 ^ -100, -2 ^ -99)` facing
east, the wall cell `(0, 0)` of `ringMap` has `dx = 2 ^ -100` and
`dy = 2 ^ -99`; their squares underflow to zero in binary32, so the computed
`distance` is zero, `dot` is plus infinity, and the wall tile is drawn. In
exact arithmetic the distance is not zero and the normalized dot product is
below `0.7` (its square is `1 / 5`). -/
theorem drawMap_underflow_counterexample :
    ringMap 0 0 = 1 ∧
    cellDx tinyOffsetGlobals 0 = FloatVal.finite (pow2 (-100)) ∧
    cellDy tinyOffsetGlobals 0 = FloatVal.finite (pow2 (-99)) ∧
    cellDistance axisMath tinyOffsetGlobals 0 0 = FloatVal.finite 0 ∧
    dotNumerator axisMath tinyOffsetGlobals 0 0 = FloatVal.finite (pow2 (-100)) ∧
    cellDot axisMath tinyOffsetGlobals 0 0 = FloatVal.posInf ∧
    wallTile 0 0 ∈ drawMap axisMath ringMap tinyOffsetGlobals ∧
    (pow2 (-100) * 1 + pow2 (-99) * 0) ^ 2 * 5 =
      pow2 (-100) * pow2 (-100) + pow2 (-99) * pow2 (-99) := by
  refine ⟨by decide, by decide!, by decide!, by decide!, by decide!, by decide!, ?_, by decide!⟩
  exact (mem_drawMap _ _ _ _).2 ⟨0, 0, by decide!⟩

end Maze
